import Mathlib

/-!
Verification development for the stripeflare middleware (Cloudflare worker,
`src/middleware.ts` and the token codec `encrypt-decrypt-js`).

The embedding is shallow: each SQL statement issued by the middleware is
translated to an explicit function on a list of user rows (the `users`
table), and each handler becomes a pure function from its inputs and the
store state to its outputs and the updated store state.  The durable-object
storage layer is modelled as a single consistent list of rows (the spec
treats per-user shards plus the aggregate mirror as one logical table with
best-effort mirroring).  Randomness (`crypto.randomUUID`) is passed in as an
explicit argument, and the WebCrypto primitives used by the token codec are
passed in as a record of functions together with their standard
contracts.
-/

set_option maxRecDepth 4096

/-- One row of the `users` table (see the `CREATE TABLE users` migration in
`src/middleware.ts`).  `balance` is an SQL INTEGER (cents); nullable TEXT
columns become `Option String`.  The in-memory `StripeUser` type of the
middleware has the same fields. -/
structure StripeUser where
  access_token : String
  balance : Int
  name : Option String
  email : Option String
  verified_email : Option String
  verified_user_access_token : Option String
  card_fingerprint : Option String
  client_reference_id : Option String
deriving DecidableEq, Repr

/-- The `users` table: the logical, consistent view of all user shards plus
the aggregate mirror. -/
abbrev DB := List StripeUser

/-- JavaScript truthiness of a nullable string (`null`/`undefined`/`""` are
falsy). -/
def optTruthy : Option String → Bool
  | some s => s ≠ ""
  | none => false

/-- `SELECT * FROM users WHERE access_token = ?` returning the first row, if
any (`.one`). -/
def findUser (db : DB) (tok : String) : Option StripeUser :=
  db.find? (fun r => r.access_token == tok)

/-- The WHERE clause of the conditional charge UPDATE in `charge` /
`chargeUser`: `access_token = ?` and, unless `allowNegative`,
`balance >= ?`. -/
def matchesCharge (allowNegative : Bool) (tok : String) (amountCent : Int)
    (r : StripeUser) : Bool :=
  r.access_token == tok && (allowNegative || amountCent ≤ r.balance)

/-- The charge UPDATE statement: decrement `balance` on every matching row;
also returns `rowsWritten` (the number of rows the UPDATE affected). -/
def chargeUpdate (allowNegative : Bool) (tok : String) (amountCent : Int)
    (db : DB) : DB × Nat :=
  (db.map (fun r =>
      if matchesCharge allowNegative tok amountCent r then
        { r with balance := r.balance - amountCent }
      else r),
   (db.filter (matchesCharge allowNegative tok amountCent)).length)

/-- Result type of `charge` (`{ charged, message }` in the source). -/
structure ChargeResult where
  charged : Bool
  message : String
deriving DecidableEq, Repr

def notSignedUpMsg : String := "User is not signed up yet and cannot be charged"

def balanceTooLowMsg : String := "User balance too low"

def successfullyChargedMsg : String := "Successfully charged"

/-- The `charge` closure created by `stripeBalanceMiddleware` (and the
`chargeUser` helper, which has the same body): refuse when there is no
store client or no access token, otherwise run the (conditional) UPDATE and
report failure exactly when it wrote zero rows. -/
def charge (hasClient : Bool) (userAccessToken : String) (amountCent : Int)
    (allowNegativeBalance : Bool) (db : DB) : ChargeResult × DB :=
  if !hasClient || userAccessToken == "" then
    ({ charged := false, message := notSignedUpMsg }, db)
  else
    let res := chargeUpdate allowNegativeBalance userAccessToken amountCent db
    if res.2 = 0 then ({ charged := false, message := balanceTooLowMsg }, res.1)
    else ({ charged := true, message := successfullyChargedMsg }, res.1)

/-- Tokens are pairwise distinct: `access_token` is the PRIMARY KEY of the
`users` table. -/
def UniqueTokens (db : DB) : Prop :=
  (db.map (fun r => r.access_token)).Nodup

instance : DecidablePred UniqueTokens := fun db => by
  unfold UniqueTokens; infer_instance

/- ### Generic list lemmas about the SQL statement models -/

/-- A per-row update that can only touch rows with token `tok` leaves a
database without such rows unchanged. -/
theorem map_update_eq_self (db : DB) (p : StripeUser → Bool)
    (f : StripeUser → StripeUser)
    (h : ∀ r ∈ db, p r = false) :
    db.map (fun r => if p r then f r else r) = db := by
  induction db with
  | nil => rfl
  | cons a l ih =>
    have ha := h a (by simp)
    simp only [List.map_cons, ha, Bool.false_eq_true, if_false]
    rw [ih (fun r hr => h r (by simp [hr]))]

theorem filter_length_zero_iff (db : DB) (p : StripeUser → Bool) :
    (db.filter p).length = 0 ↔ ∀ r ∈ db, p r = false := by
  rw [List.length_eq_zero, List.filter_eq_nil_iff]
  simp

/-- In a primary-keyed table, two member rows with the same token are the
same row. -/
theorem uniqueTokens_eq (db : DB) (h : UniqueTokens db) :
    ∀ y ∈ db, ∀ z ∈ db, y.access_token = z.access_token → y = z := by
  induction db with
  | nil => intro y hy; simp at hy
  | cons a l ih =>
    have hnd : (∀ x ∈ l, ¬ x.access_token = a.access_token) ∧ UniqueTokens l := by
      simpa [UniqueTokens, List.nodup_cons] using h
    intro y hy z hz hyz
    rcases List.mem_cons.1 hy with hy1 | hy1 <;>
      rcases List.mem_cons.1 hz with hz1 | hz1
    · rw [hy1, hz1]
    · subst hy1
      exact absurd hyz.symm (hnd.1 z hz1)
    · subst hz1
      exact absurd hyz (hnd.1 y hy1)
    · exact ih hnd.2 y hy1 z hz1 hyz

/-- `find?` on a mapped list, when the map preserves the searched key. -/
theorem findUser_map (db : DB) (tok : String) (f : StripeUser → StripeUser)
    (hf : ∀ r, (f r).access_token = r.access_token) :
    findUser (db.map f) tok = (findUser db tok).map f := by
  induction db with
  | nil => rfl
  | cons a l ih =>
    by_cases ha : a.access_token = tok
    · simp [findUser, List.find?_cons, hf, ha]
    · simp only [findUser, List.map_cons, List.find?_cons] at *
      have h1 : ((f a).access_token == tok) = false := by
        simp [hf, ha]
      have h2 : (a.access_token == tok) = false := by simp [ha]
      rw [h1, h2]
      exact ih

theorem findUser_mem (db : DB) (tok : String) (r : StripeUser)
    (h : findUser db tok = some r) : r ∈ db ∧ r.access_token = tok := by
  have hm := List.mem_of_find?_eq_some h
  have hp := List.find?_some h
  exact ⟨hm, by simpa using hp⟩

/-- C1, success case core: the conditional UPDATE with a unique matching row. -/
theorem chargeUpdate_unique (db : DB) (tok : String) (amt : Int) (r : StripeUser)
    (hu : UniqueTokens db) (hr : findUser db tok = some r) :
    (amt ≤ r.balance →
      chargeUpdate false tok amt db =
        (db.map (fun x => if x.access_token == tok then { x with balance := x.balance - amt } else x),
         (db.filter (fun x => x.access_token == tok)).length)) ∧
    (r.balance < amt → chargeUpdate false tok amt db = (db, 0)) := by
  obtain ⟨hmem, htok⟩ := findUser_mem db tok r hr
  constructor
  · intro hle
    unfold chargeUpdate
    have hcond : ∀ x ∈ db, matchesCharge false tok amt x = (x.access_token == tok) := by
      intro x hx
      by_cases h : x.access_token = tok
      · have : x = r := uniqueTokens_eq db hu x hx r hmem (h.trans htok.symm)
        simp [matchesCharge, h, this, hle]
      · simp [matchesCharge, h]
    simp only [Prod.mk.injEq]
    constructor
    · apply List.map_congr_left
      intro x hx
      rw [hcond x hx]
    · congr 1
      apply List.filter_congr
      intro x hx
      rw [hcond x hx]
  · intro hlt
    have hcond : ∀ x ∈ db, matchesCharge false tok amt x = false := by
      intro x hx
      by_cases h : x.access_token = tok
      · have : x = r := uniqueTokens_eq db hu x hx r hmem (h.trans htok.symm)
        subst this
        simp [matchesCharge, h, not_le.2 hlt]
      · simp [matchesCharge, h]
    unfold chargeUpdate
    simp only [Prod.mk.injEq]
    constructor
    · exact map_update_eq_self db _ _ hcond
    · exact (filter_length_zero_iff db _).2 hcond

/-- Rows written by the conditional update are positive when the unique row
has sufficient balance. -/
theorem filter_token_length_pos (db : DB) (tok : String) (r : StripeUser)
    (hmem : r ∈ db) (htok : r.access_token = tok) :
    (db.filter (fun x => x.access_token == tok)).length ≠ 0 := by
  have : r ∈ db.filter (fun x => x.access_token == tok) := by
    rw [List.mem_filter]
    exact ⟨hmem, by simp [htok]⟩
  have := List.length_pos.2 (List.ne_nil_of_mem this)
  omega

/-- C1: for a persisted user row and any `amountCents`, a charge with
`allowNegative = false` decrements the balance by `amountCents` exactly when
the current balance is at least `amountCents`; when the UPDATE affects zero
rows it fails with the insufficient-balance message and leaves the store
unchanged, so a successful non-negative-mode charge never drives the balance
below zero. -/
theorem charge_nonNegativeMode_spec (db : DB) (tok : String) (amt : Int)
    (r : StripeUser) (hu : UniqueTokens db) (hr : findUser db tok = some r)
    (htok : tok ≠ "") :
    (amt ≤ r.balance →
      (charge true tok amt false db).1.charged = true ∧
      findUser (charge true tok amt false db).2 tok =
        some { r with balance := r.balance - amt } ∧
      0 ≤ r.balance - amt) ∧
    (r.balance < amt →
      (charge true tok amt false db).1.charged = false ∧
      (charge true tok amt false db).1.message = balanceTooLowMsg ∧
      (charge true tok amt false db).2 = db) := by
  obtain ⟨hmem, hrtok⟩ := findUser_mem db tok r hr
  have hne : (tok == "") = false := by simp [htok]
  constructor
  · intro hle
    have hupd := (chargeUpdate_unique db tok amt r hu hr).1 hle
    have hlen := filter_token_length_pos db tok r hmem hrtok
    have hcharge : charge true tok amt false db =
        ({ charged := true, message := successfullyChargedMsg },
         db.map (fun x => if x.access_token == tok then
           { x with balance := x.balance - amt } else x)) := by
      simp [charge, hne, hupd, hlen]
    refine ⟨by rw [hcharge], ?_, by omega⟩
    rw [hcharge]
    have hpres : ∀ x : StripeUser,
        ((fun x => if x.access_token == tok then
          { x with balance := x.balance - amt } else x) x).access_token =
          x.access_token := by
      intro x
      by_cases h : x.access_token = tok <;> simp [h]
    rw [findUser_map db tok _ hpres, hr]
    simp [hrtok]
  · intro hlt
    have hupd := (chargeUpdate_unique db tok amt r hu hr).2 hlt
    have hcharge : charge true tok amt false db =
        ({ charged := false, message := balanceTooLowMsg }, db) := by
      simp [charge, hne, hupd]
    rw [hcharge]
    exact ⟨rfl, rfl, rfl⟩

def chargeWitnessUser : StripeUser :=
  ⟨"t1", 5, none, none, none, none, none, none⟩

def chargeWitnessDB : DB := [chargeWitnessUser]

/-- Witness for `charge_nonNegativeMode_spec` at a concrete one-row store. -/
theorem charge_nonNegativeMode_spec_witness :
    (charge true ("t1") 3 false chargeWitnessDB).1.charged = true ∧
    findUser (charge true ("t1") 3 false chargeWitnessDB).2 ("t1") =
      some { chargeWitnessUser with balance := 2 } ∧
    (0 : Int) ≤ 2 := by
  have h := (charge_nonNegativeMode_spec chargeWitnessDB ("t1") 3
    chargeWitnessUser (by decide) (by decide) (by decide)).1 (by decide)
  refine ⟨h.1, ?_, by norm_num⟩
  have := h.2.1
  simpa [chargeWitnessUser] using this

/- ### Session resolver (`handleUserSession`) -/

def isHexDigit (c : Char) : Bool :=
  ('0' ≤ c && c ≤ '9') || ('a' ≤ c && c ≤ 'f') || ('A' ≤ c && c ≤ 'F')

/-- The `uuidGeneralRegex` of `handleUserSession`:
`^[0-9a-f]{8}-[0-9a-f]{4}-[0-9a-f]{4}-[0-9a-f]{4}-[0-9a-f]{12}$` with the
case-insensitive flag. -/
def isUuidFormat (s : String) : Bool :=
  let l := s.data
  l.length == 36 &&
  (List.range 36).all (fun i =>
    if i = 8 || i = 13 || i = 18 || i = 23 then l.getD i ' ' == '-'
    else isHexDigit (l.getD i ' '))

/-- Lookup phase of `handleUserSession`: returns the value of the
`accessToken` variable at the end of the `try` block together with the
resolved row, if any.  A credential whose row is missing fails the
`.one` read (the `catch` comment in the source: "User not found, will
create new one"), leaving no row; a row whose `verified_user_access_token`
is (JS-)truthy redirects once to that token's row. -/
def resolveStep (db : DB) (credential : Option String) :
    Option String × Option StripeUser :=
  match credential with
  | none => (none, none)
  | some tok0 =>
    match findUser db tok0 with
    | none => (some tok0, none)
    | some u0 =>
      if optTruthy u0.verified_user_access_token then
        match u0.verified_user_access_token with
        | some v => (some v, findUser db v)
        | none => (some tok0, none)
      else (some tok0, some u0)

/-- The self-healing statement
`UPDATE users SET client_reference_id = ? WHERE access_token = ?`. -/
def healDb (enc : String → String) (tok : String) (db : DB) : DB :=
  db.map (fun r =>
    if r.access_token == tok then { r with client_reference_id := some (enc tok) }
    else r)

/-- The unpersisted user object constructed when no row was resolved:
`{ access_token, balance: 0, email: null, client_reference_id }`. -/
def mintUser (enc : String → String) (tok : String) : StripeUser :=
  { access_token := tok, balance := 0, name := none, email := none,
    verified_email := none, verified_user_access_token := none,
    card_fingerprint := none, client_reference_id := some (enc tok) }

/-- Output of session resolution: the user record, whether a store handle
(`client`) is available, and the store state after the self-heal write. -/
structure SessionOutcome where
  user : StripeUser
  clientPresent : Bool
  db : DB
deriving DecidableEq, Repr

/-- `handleUserSession`, with the token codec abstracted as `enc` and the
`crypto.randomUUID()` draw passed as `freshUuid`. -/
def handleUserSession (enc : String → String) (credential : Option String)
    (freshUuid : String) (db : DB) : SessionOutcome :=
  match resolveStep db credential with
  | (some effTok, some u) =>
    if u.client_reference_id == some (enc effTok) then
      { user := u, clientPresent := true, db := db }
    else
      { user := { u with client_reference_id := some (enc effTok) },
        clientPresent := true, db := healDb enc effTok db }
  | (tokOpt, _) =>
    let tok1 := match tokOpt with
      | some t => if isUuidFormat t then t else freshUuid
      | none => freshUuid
    { user := mintUser enc tok1, clientPresent := false, db := db }

theorem healDb_token_map (enc : String → String) (tok : String) (db : DB) :
    (healDb enc tok db).map (fun r => r.access_token) =
      db.map (fun r => r.access_token) := by
  unfold healDb
  rw [List.map_map]
  apply List.map_congr_left
  intro x _
  by_cases h : x.access_token = tok <;> simp [h]

theorem healDb_balance_map (enc : String → String) (tok : String) (db : DB) :
    (healDb enc tok db).map (fun r => r.balance) =
      db.map (fun r => r.balance) := by
  unfold healDb
  rw [List.map_map]
  apply List.map_congr_left
  intro x _
  by_cases h : x.access_token = tok <;> simp [h]

theorem healDb_untouched (enc : String → String) (tok : String) (db : DB) :
    ∀ r ∈ db, r.access_token ≠ tok → r ∈ healDb enc tok db := by
  intro r hr hne
  unfold healDb
  have : (fun r : StripeUser =>
      if r.access_token == tok then { r with client_reference_id := some (enc tok) }
      else r) r = r := by
    simp [hne]
  exact this ▸ List.mem_map_of_mem _ hr

/-- C8: when session resolution finds an effective user row, the store is
left untouched if its stored `client_reference_id` already equals the
current codec output of the effective `access_token`; otherwise exactly the
`client_reference_id` column of that row is rewritten — every row keeps its
`access_token` and `balance`, and rows of other users are unchanged. -/
theorem session_selfHeal_spec (enc : String → String) (fresh : String)
    (db : DB) (tok effTok : String) (effU : StripeUser)
    (hres : resolveStep db (some tok) = (some effTok, some effU)) :
    (effU.client_reference_id = some (enc effTok) →
      (handleUserSession enc (some tok) fresh db).db = db) ∧
    (effU.client_reference_id ≠ some (enc effTok) →
      (handleUserSession enc (some tok) fresh db).db = healDb enc effTok db) ∧
    ((handleUserSession enc (some tok) fresh db).db.map (fun r => r.access_token) =
      db.map (fun r => r.access_token)) ∧
    ((handleUserSession enc (some tok) fresh db).db.map (fun r => r.balance) =
      db.map (fun r => r.balance)) ∧
    (∀ r ∈ db, r.access_token ≠ effTok →
      r ∈ (handleUserSession enc (some tok) fresh db).db) := by
  have hout : handleUserSession enc (some tok) fresh db =
      (if effU.client_reference_id == some (enc effTok) then
        { user := effU, clientPresent := true, db := db }
      else
        { user := { effU with client_reference_id := some (enc effTok) },
          clientPresent := true, db := healDb enc effTok db }) := by
    unfold handleUserSession
    rw [hres]
  by_cases hcri : effU.client_reference_id = some (enc effTok)
  · have hdb : (handleUserSession enc (some tok) fresh db).db = db := by
      rw [hout]
      simp [hcri]
    refine ⟨fun _ => hdb, fun h => absurd hcri h, ?_, ?_, ?_⟩
    · rw [hdb]
    · rw [hdb]
    · intro r hr _
      rw [hdb]
      exact hr
  · have hdb : (handleUserSession enc (some tok) fresh db).db = healDb enc effTok db := by
      rw [hout]
      simp [hcri]
    refine ⟨fun h => absurd h hcri, fun _ => hdb, ?_, ?_, ?_⟩
    · rw [hdb, healDb_token_map]
    · rw [hdb, healDb_balance_map]
    · intro r hr hne
      rw [hdb]
      exact healDb_untouched enc effTok db r hr hne

def selfHealWitnessUser : StripeUser :=
  ⟨"t1", 7, none, none, none, none, none, some "stale"⟩

def selfHealWitnessDB : DB := [selfHealWitnessUser]

def encW : String → String := fun s => s ++ "!"

/-- Witness for `session_selfHeal_spec`: a row whose stored
`client_reference_id` is stale gets exactly that column rewritten. -/
theorem session_selfHeal_spec_witness :
    (handleUserSession encW (some ("t1")) ("f") selfHealWitnessDB).db =
      healDb encW ("t1") selfHealWitnessDB ∧
    healDb encW ("t1") selfHealWitnessDB =
      [⟨"t1", 7, none, none, none, none, none, some "t1!"⟩] := by
  constructor
  · exact (session_selfHeal_spec encW ("f") selfHealWitnessDB ("t1") ("t1")
      selfHealWitnessUser (by decide)).2.1 (by decide)
  · decide

def encId : String → String := fun s => s

def staleUuidCred : String := "00000000-0000-0000-0000-000000000000"

def freshUuid0 : String := "11111111-1111-1111-1111-111111111111"

/-- C4 counterexample: a credential in valid UUID format whose row does not
exist is KEPT by the resolver (`if (!accessToken || !accessToken.match(
uuidGeneralRegex)) accessToken = crypto.randomUUID()`), so no fresh random
credential is minted even though the credential failed to resolve. -/
theorem resolver_mints_fresh_counterexample :
    (handleUserSession encId (some staleUuidCred) freshUuid0 []).user.access_token
      = staleUuidCred ∧ staleUuidCred ≠ freshUuid0 := by decide

/-- C4 (amended): for every request whose credential is absent or fails to
resolve to a stored record, the resolver returns an unpersisted user record
(no store handle, nothing written) with balance 0 and null email; its
credential is a freshly minted random UUID when the incoming credential was
absent or not in the collision-resistant UUID format, and is the incoming
(unresolved) credential itself when that credential already had UUID
format.  No error is surfaced. -/
theorem resolver_fallback_spec (enc : String → String)
    (credential : Option String) (fresh : String) (db : DB)
    (hfail : (resolveStep db credential).2 = none) :
    (handleUserSession enc credential fresh db).clientPresent = false ∧
    (handleUserSession enc credential fresh db).db = db ∧
    (handleUserSession enc credential fresh db).user.balance = 0 ∧
    (handleUserSession enc credential fresh db).user.email = none ∧
    (handleUserSession enc credential fresh db).user =
      mintUser enc
        (match (resolveStep db credential).1 with
         | some t => if isUuidFormat t then t else fresh
         | none => fresh) := by
  rcases hres : resolveStep db credential with ⟨tokOpt, uOpt⟩
  rw [hres] at hfail
  simp only at hfail
  subst hfail
  cases tokOpt with
  | none => simp [handleUserSession, hres, mintUser]
  | some t => simp [handleUserSession, hres, mintUser]

/-- Witness for `resolver_fallback_spec`: an ill-formatted credential over an
empty store. -/
theorem resolver_fallback_spec_witness :
    (handleUserSession encId (some ("not-a-uuid")) freshUuid0 []).clientPresent = false ∧
    (handleUserSession encId (some ("not-a-uuid")) freshUuid0 []).db = [] ∧
    (handleUserSession encId (some ("not-a-uuid")) freshUuid0 []).user.balance = 0 ∧
    (handleUserSession encId (some ("not-a-uuid")) freshUuid0 []).user.email = none ∧
    (handleUserSession encId (some ("not-a-uuid")) freshUuid0 []).user =
      mintUser encId
        (match (resolveStep [] (some ("not-a-uuid"))).1 with
         | some t => if isUuidFormat t then t else freshUuid0
         | none => freshUuid0) := by
  exact resolver_fallback_spec encId (some ("not-a-uuid")) freshUuid0 [] (by decide)

/-- C5: an identity that exists only unpersisted (its token has no stored
row) resolves with an absent store handle, and `charge` on the resolved
session fails with the not-signed-up (NotFunded) message — not the
balance-too-low (InsufficientBalance) one — performing no mutation. -/
theorem charge_unpersisted_notFunded (enc : String → String)
    (tok fresh : String) (db : DB) (amt : Int) (allowNeg : Bool)
    (hnone : findUser db tok = none) :
    (handleUserSession enc (some tok) fresh db).clientPresent = false ∧
    (charge (handleUserSession enc (some tok) fresh db).clientPresent
        (handleUserSession enc (some tok) fresh db).user.access_token
        amt allowNeg db).1 =
      { charged := false, message := notSignedUpMsg } ∧
    (charge (handleUserSession enc (some tok) fresh db).clientPresent
        (handleUserSession enc (some tok) fresh db).user.access_token
        amt allowNeg db).2 = db := by
  have hres : resolveStep db (some tok) = (some tok, none) := by
    simp [resolveStep, hnone]
  have hcp : (handleUserSession enc (some tok) fresh db).clientPresent = false := by
    unfold handleUserSession
    rw [hres]
  rw [hcp]
  refine ⟨rfl, ?_, ?_⟩ <;> simp [charge]

/-- Witness for `charge_unpersisted_notFunded`. -/
theorem charge_unpersisted_notFunded_witness :
    (handleUserSession encId (some staleUuidCred) freshUuid0 []).clientPresent = false ∧
    (charge (handleUserSession encId (some staleUuidCred) freshUuid0 []).clientPresent
        (handleUserSession encId (some staleUuidCred) freshUuid0 []).user.access_token
        25 false []).1 =
      { charged := false, message := notSignedUpMsg } ∧
    (charge (handleUserSession encId (some staleUuidCred) freshUuid0 []).clientPresent
        (handleUserSession encId (some staleUuidCred) freshUuid0 []).user.access_token
        25 false []).2 = [] := by
  exact charge_unpersisted_notFunded encId staleUuidCred freshUuid0 [] 25 false (by decide)

/- ### Payment reconciler (`handleStripeWebhook`) -/

/-- The fields of a signature-verified `checkout.session.completed` payload
that the reconciler reads.  `amount_total` is 0 when the Stripe field is
null/absent (the source tests JS falsiness `!session.amount_total`). -/
structure WebhookEvent where
  type : String
  payment_status : String
  amount_total : Int
  client_reference_id : Option String
  customer_email : Option String
  customer_name : Option String
deriving DecidableEq, Repr

/-- Payment-instrument metadata retrieved from the payment intent's latest
charge: the stable card fingerprint and the payment-method channel type
(`payment_method_details.type`). -/
structure ChargeDetails where
  card_fingerprint : Option String
  pm_type : String
deriving DecidableEq, Repr

/-- JS `x || null` on a nullable string. -/
def jsOrNull (o : Option String) : Option String :=
  if optTruthy o then o else none

/-- `UPDATE users SET balance = balance + ?, email = ?, name = ? WHERE
access_token = ?` applied to one row. -/
def creditRow (tok : String) (amt : Int) (email nameVal : Option String)
    (r : StripeUser) : StripeUser :=
  if r.access_token == tok then
    { r with balance := r.balance + amt, email := email, name := jsOrNull nameVal }
  else r

/-- The stub row inserted by `INSERT INTO users (access_token,
verified_user_access_token) VALUES (?, ?)`: `balance` takes its DEFAULT 0
and every other column is NULL. -/
def stubRow (tok vuat : String) : StripeUser :=
  { access_token := tok, balance := 0, name := none, email := none,
    verified_email := none, verified_user_access_token := some vuat,
    card_fingerprint := none, client_reference_id := none }

/-- The brand-new row inserted on the new-payer path (branch with no
alternate identity). -/
def newPayerRow (tok cri : String) (ev : WebhookEvent) (cd : ChargeDetails) :
    StripeUser :=
  { access_token := tok, balance := ev.amount_total,
    name := jsOrNull ev.customer_name, email := ev.customer_email,
    verified_email := jsOrNull (if cd.pm_type == "link" then ev.customer_email else none),
    verified_user_access_token := none,
    card_fingerprint := jsOrNull cd.card_fingerprint,
    client_reference_id := some cri }

/-- JS `a?.access_token || b?.access_token` (empty string is falsy). -/
def jsOrString (a b : Option String) : Option String :=
  match a with
  | some s => if s == "" then b else some s
  | none => b

/-- The alternate-identity search of the reconciler: by `verified_email`
(the customer email counts as verified only for the trusted `link`
channel) first, then by `card_fingerprint`; first match wins. -/
def altToken (db : DB) (ev : WebhookEvent) (cd : ChargeDetails) :
    Option String :=
  let verifiedEmail := if cd.pm_type == "link" then ev.customer_email else none
  let fromEmail :=
    match verifiedEmail with
    | some e =>
      if e == "" then none
      else (db.find? (fun r => r.verified_email == some e)).map
        (fun r => r.access_token)
    | none => none
  let fromFp :=
    match cd.card_fingerprint with
    | some f =>
      if f == "" then none
      else (db.find? (fun r => r.card_fingerprint == some f)).map
        (fun r => r.access_token)
    | none => none
  jsOrString fromEmail fromFp

/-- `handleStripeWebhook` after request parsing and signature verification,
with the codec's decrypt abstracted as `dec` (`none` models a
`decryptToken` throw).  The `env.DB_SECRET` presence check always passes
because `stripeBalanceMiddleware` rejects requests before dispatch when any
environment secret is missing.  Returns the HTTP status code of the
response together with the resulting store state. -/
def handleStripeWebhook (dec : String → Option String) (ev : WebhookEvent)
    (cd : ChargeDetails) (db : DB) : Nat × DB :=
  if ev.type ≠ "checkout.session.completed" then (200, db)
  else if ev.payment_status ≠ "paid" ∨ ev.amount_total = 0 then (400, db)
  else
    match ev.client_reference_id with
    | none => (400, db)
    | some cri =>
      if cri = "" then (400, db)
      else if ¬ optTruthy ev.customer_email then (400, db)
      else
        match dec cri with
        | none => (200, db)
        | some accessToken =>
          match findUser db accessToken with
          | some _ =>
            (200, db.map (creditRow accessToken ev.amount_total
              ev.customer_email ev.customer_name))
          | none =>
            match altToken db ev cd with
            | none => (200, db ++ [newPayerRow accessToken cri ev cd])
            | some vuat =>
              if vuat = accessToken then (500, db)
              else
                (200, (db ++ [stubRow accessToken vuat]).map
                  (creditRow vuat ev.amount_total ev.customer_email
                    ev.customer_name))

/-- C3: when a completed payment's decoded token has no row but the
alternate-identity search (verified e-mail first, then card fingerprint)
finds a distinct token `A`, the reconciler appends a stub row carrying only
the forwarding pointer `verified_user_access_token = A` (balance DEFAULT 0,
all other columns NULL) and credits the amount onto `A`'s row, overwriting
its name and e-mail. -/
theorem webhook_merge_spec (dec : String → Option String) (ev : WebhookEvent)
    (cd : ChargeDetails) (db : DB) (cri t A : String)
    (htype : ev.type = "checkout.session.completed")
    (hpaid : ev.payment_status = "paid")
    (hamt : ev.amount_total ≠ 0)
    (hcri : ev.client_reference_id = some cri)
    (hcri2 : cri ≠ "")
    (hmail : optTruthy ev.customer_email)
    (hdec : dec cri = some t)
    (hnouser : findUser db t = none)
    (halt : altToken db ev cd = some A)
    (hne : A ≠ t) :
    handleStripeWebhook dec ev cd db =
      (200, db.map (creditRow A ev.amount_total ev.customer_email ev.customer_name)
        ++ [stubRow t A]) ∧
    stubRow t A = ⟨t, 0, none, none, none, some A, none, none⟩ := by
  constructor
  · have hstep : handleStripeWebhook dec ev cd db =
        (200, (db ++ [stubRow t A]).map
          (creditRow A ev.amount_total ev.customer_email ev.customer_name)) := by
      simp [handleStripeWebhook, htype, hpaid, hamt, hcri, hcri2, hmail, hdec,
        hnouser, halt, hne]
    rw [hstep, List.map_append]
    have htA : t ≠ A := fun h => hne h.symm
    have hstub : creditRow A ev.amount_total ev.customer_email ev.customer_name
        (stubRow t A) = stubRow t A := by
      simp [creditRow, stubRow, htA]
    rw [List.map_singleton, hstub]
  · rfl

def t1Row : StripeUser :=
  ⟨"T1", 500, none, some "p@x.com", none, none, some "F1", some "criT1"⟩

def mergeDB : DB := [t1Row]

def mergeEvent : WebhookEvent :=
  ⟨"checkout.session.completed", "paid", 300, some "criT2", some "p@x.com", some "Pat"⟩

def mergeDetails : ChargeDetails := ⟨some "F1", "card"⟩

def decMerge : String → Option String :=
  fun s => if s == "criT2" then some ("T2") else none

/-- Witness for `webhook_merge_spec`: the spec's merge scenario — `T1`
funded with 500 and fingerprint `F1`; an event for fresh `T2` with the same
fingerprint and amount 300 leaves `T2` a pure forwarding stub and `T1` at
800. -/
theorem webhook_merge_spec_witness :
    handleStripeWebhook decMerge mergeEvent mergeDetails mergeDB =
      (200, [⟨"T1", 800, some "Pat", some "p@x.com", none, none, some "F1", some "criT1"⟩,
             ⟨"T2", 0, none, none, none, some "T1", none, none⟩]) := by
  have h := (webhook_merge_spec decMerge mergeEvent mergeDetails mergeDB
    ("criT2") ("T2") ("T1") (by decide) (by decide) (by decide) (by decide)
    (by decide) (by decide) (by decide) (by decide) (by decide) (by decide)).1
  rw [h]
  decide

/-- A webhook response the upstream sender treats as a success
acknowledgement (2xx), i.e. one it will not retry. -/
def nonRetryAck (status : Nat) : Bool := 200 ≤ status && status < 300

def unpaidEvent : WebhookEvent :=
  ⟨"checkout.session.completed", "unpaid", 500, some "cri1", some "a@b.c", none⟩

def cardDetails : ChargeDetails := ⟨some "F1", "card"⟩

def decAlways : String → Option String := fun s => some s

/-- C6 counterexample: an event whose status is not paid is rejected with
HTTP 400 — an error the upstream sender retries — not with a non-retry
acknowledgement as the claim states. -/
theorem webhook_nonretry_counterexample :
    (handleStripeWebhook decAlways unpaidEvent cardDetails []).1 = 400 ∧
    nonRetryAck 400 = false := by decide

/-- The reconciler's precondition checks, in source order: wrong event
type, status not paid or falsy amount, missing/empty public identifier,
missing/empty customer e-mail, or a public identifier that fails to
decode. -/
def webhookPreconditionFails (dec : String → Option String)
    (ev : WebhookEvent) : Bool :=
  (ev.type != "checkout.session.completed") ||
  (ev.payment_status != "paid") || (ev.amount_total == 0) ||
  !(optTruthy ev.client_reference_id) ||
  !(optTruthy ev.customer_email) ||
  (match ev.client_reference_id with
   | some cri => (dec cri).isNone
   | none => true)

/-- The status the source returns for a failing event: 200 for a foreign
event type and for a decode failure (non-retry acknowledgements), 400 for
every other failed check (an error response the upstream retries). -/
def webhookFailStatus (ev : WebhookEvent) : Nat :=
  if ev.type ≠ "checkout.session.completed" then 200
  else if ev.payment_status ≠ "paid" ∨ ev.amount_total = 0 then 400
  else
    match ev.client_reference_id with
    | none => 400
    | some cri =>
      if cri = "" then 400
      else if ¬ optTruthy ev.customer_email then 400
      else 200

/-- C6 (amended): every payment event failing the reconciler's precondition
checks (event type not `checkout.session.completed`, status not paid, zero
amount, missing public identifier, missing customer e-mail, or decode
failure) causes no store mutation; but only the foreign-event-type and
decode-failure cases are acknowledged success-style (200) — the other
failed checks return a 400 error response, which the upstream sender may
retry. -/
theorem webhook_precondition_spec (dec : String → Option String)
    (ev : WebhookEvent) (cd : ChargeDetails) (db : DB)
    (h : webhookPreconditionFails dec ev = true) :
    handleStripeWebhook dec ev cd db = (webhookFailStatus ev, db) := by
  by_cases h1 : ev.type = "checkout.session.completed"
  case neg => simp [handleStripeWebhook, webhookFailStatus, h1]
  case pos =>
  by_cases h2 : ev.payment_status = "paid"
  case neg => simp [handleStripeWebhook, webhookFailStatus, h1, h2]
  case pos =>
  by_cases h3 : ev.amount_total = 0
  case pos => simp [handleStripeWebhook, webhookFailStatus, h1, h2, h3]
  case neg =>
  rcases hcri : ev.client_reference_id with _ | cri
  · simp [handleStripeWebhook, webhookFailStatus, h1, h2, h3, hcri]
  by_cases h4 : cri = ""
  case pos => simp [handleStripeWebhook, webhookFailStatus, h1, h2, h3, hcri, h4]
  case neg =>
  by_cases h5 : optTruthy ev.customer_email = true
  case neg =>
    simp [handleStripeWebhook, webhookFailStatus, h1, h2, h3, hcri, h4, h5]
  case pos =>
  have hdec : dec cri = none := by
    have hct : optTruthy (some cri) = true := by simp [optTruthy, h4]
    simp [webhookPreconditionFails, h1, h2, h3, hcri, h4, h5, hct,
      Option.isNone_iff_eq_none] at h
    exact h
  simp [handleStripeWebhook, webhookFailStatus, h1, h2, h3, hcri, h4, h5, hdec]

def decNever : String → Option String := fun _ => none

/-- Witness for `webhook_precondition_spec`: a decode failure is discarded
with a success-style 200 and no mutation. -/
theorem webhook_precondition_spec_witness :
    handleStripeWebhook decNever
      (⟨"checkout.session.completed", "paid", 500, some "cri1", some "a@b.c", none⟩)
      cardDetails [t1Row] =
    (webhookFailStatus
      (⟨"checkout.session.completed", "paid", 500, some "cri1", some "a@b.c", none⟩),
     [t1Row]) := by
  exact webhook_precondition_spec decNever
    (⟨"checkout.session.completed", "paid", 500, some "cri1", some "a@b.c", none⟩)
    cardDetails [t1Row] (by decide)

/- ### Token rotation (`handleTokenRotation`) -/

/-- `DELETE FROM users WHERE access_token = ?`. -/
def deleteUser (db : DB) (tok : String) : DB :=
  db.filter (fun r => !(r.access_token == tok))

/-- The row inserted by the rotation INSERT: every ledger column copied
from the session user, the new public identifier, and the forwarding
pointer reset to NULL. -/
def rotatedRow (enc : String → String) (newTok : String) (u : StripeUser) :
    StripeUser :=
  { access_token := newTok, balance := u.balance, email := u.email,
    verified_email := u.verified_email, card_fingerprint := u.card_fingerprint,
    name := u.name, client_reference_id := some (enc newTok),
    verified_user_access_token := none }

/-- `handleTokenRotation` after session resolution succeeded with effective
user `u`: insert the copied row under the fresh random token `newTok`, then
delete the old row.  `insertFails` / `deleteOldFails` inject failures of
the two statements; any failure lands in the `catch` block, which deletes
whatever was created under `newTok` before reporting 500. -/
def handleTokenRotation (enc : String → String) (newTok : String)
    (u : StripeUser) (insertFails deleteOldFails : Bool) (db : DB) :
    Nat × DB :=
  if insertFails then (500, deleteUser db newTok)
  else
    let db1 := db ++ [rotatedRow enc newTok u]
    if deleteOldFails then (500, deleteUser db1 newTok)
    else (200, deleteUser db1 u.access_token)

theorem findUser_eq_none_iff (db : DB) (tok : String) :
    findUser db tok = none ↔ ∀ r ∈ db, r.access_token ≠ tok := by
  unfold findUser
  rw [List.find?_eq_none]
  constructor
  · intro h r hr
    have := h r hr
    simpa using this
  · intro h r hr
    simpa using h r hr

theorem findUser_deleteUser_self (db : DB) (tok : String) :
    findUser (deleteUser db tok) tok = none := by
  rw [findUser_eq_none_iff]
  intro r hr
  have := List.of_mem_filter hr
  simpa using this

theorem deleteUser_of_absent (db : DB) (tok : String)
    (h : ∀ r ∈ db, r.access_token ≠ tok) : deleteUser db tok = db := by
  unfold deleteUser
  rw [List.filter_eq_self]
  intro r hr
  simpa using h r hr

theorem findUser_append_left_none (l1 l2 : DB) (tok : String)
    (h : ∀ r ∈ l1, r.access_token ≠ tok) :
    findUser (l1 ++ l2) tok = findUser l2 tok := by
  induction l1 with
  | nil => rfl
  | cons a l ih =>
    have ha : (a.access_token == tok) = false := by
      simp [h a (by simp)]
    simp only [findUser, List.cons_append, List.find?_cons, ha]
    exact ih (fun r hr => h r (by simp [hr]))

/-- C7: after a successful rotation the old credential no longer resolves
to any row and the new credential resolves to a row with the same balance,
email, verified_email, card_fingerprint and name as the pre-rotation row
and a NULL forwarding pointer; if the copy (or the old-row delete) fails,
the cleanup deletes any partially created new row before reporting 500, so
no orphaned new identity remains. -/
theorem rotation_spec (enc : String → String) (newTok : String)
    (u : StripeUser) (db : DB)
    (hu : findUser db u.access_token = some u)
    (hfresh : findUser db newTok = none) :
    (findUser (handleTokenRotation enc newTok u false false db).2
        u.access_token = none) ∧
    (findUser (handleTokenRotation enc newTok u false false db).2 newTok =
        some (rotatedRow enc newTok u)) ∧
    ((rotatedRow enc newTok u).balance = u.balance ∧
     (rotatedRow enc newTok u).email = u.email ∧
     (rotatedRow enc newTok u).verified_email = u.verified_email ∧
     (rotatedRow enc newTok u).card_fingerprint = u.card_fingerprint ∧
     (rotatedRow enc newTok u).name = u.name ∧
     (rotatedRow enc newTok u).verified_user_access_token = none) ∧
    ((handleTokenRotation enc newTok u true false db).1 = 500 ∧
     (handleTokenRotation enc newTok u true false db).2 = db ∧
     findUser (handleTokenRotation enc newTok u true false db).2 newTok = none) ∧
    ((handleTokenRotation enc newTok u false true db).1 = 500 ∧
     (handleTokenRotation enc newTok u false true db).2 = db ∧
     findUser (handleTokenRotation enc newTok u false true db).2 newTok = none) := by
  have habs : ∀ r ∈ db, r.access_token ≠ newTok :=
    (findUser_eq_none_iff db newTok).1 hfresh
  have hne : u.access_token ≠ newTok :=
    habs u (findUser_mem db u.access_token u hu).1
  have hsucc : (handleTokenRotation enc newTok u false false db).2 =
      deleteUser db u.access_token ++ [rotatedRow enc newTok u] := by
    simp only [handleTokenRotation, Bool.false_eq_true, if_false, deleteUser,
      List.filter_append]
    congr 1
    have hne2 : newTok ≠ u.access_token := fun h => hne h.symm
    simp [rotatedRow, hne2]
  have hclean : deleteUser (db ++ [rotatedRow enc newTok u]) newTok = db := by
    unfold deleteUser
    rw [List.filter_append]
    have h1 : db.filter (fun r => !(r.access_token == newTok)) = db := by
      rw [List.filter_eq_self]
      intro r hr
      simp [habs r hr]
    have h2 : ([rotatedRow enc newTok u] :
        DB).filter (fun r => !(r.access_token == newTok)) = [] := by
      simp [rotatedRow]
    rw [h1, h2, List.append_nil]
  refine ⟨?_, ?_, ⟨rfl, rfl, rfl, rfl, rfl, rfl⟩, ?_, ?_⟩
  · rw [hsucc]
    rw [findUser_append_left_none _ _ _ ?side]
    case side =>
      intro r hr
      have := List.of_mem_filter hr
      simpa using this
    have hne2 : newTok ≠ u.access_token := fun h => hne h.symm
    simp [findUser, rotatedRow, hne2]
  · rw [hsucc]
    rw [findUser_append_left_none _ _ _ ?side2]
    case side2 =>
      intro r hr
      exact habs r (List.mem_of_mem_filter hr)
    simp [findUser, rotatedRow]
  · refine ⟨rfl, ?_, ?_⟩
    · have : (handleTokenRotation enc newTok u true false db).2 =
          deleteUser db newTok := rfl
      rw [this, deleteUser_of_absent db newTok habs]
    · have : (handleTokenRotation enc newTok u true false db).2 =
          deleteUser db newTok := rfl
      rw [this]
      exact findUser_deleteUser_self db newTok
  · refine ⟨rfl, ?_, ?_⟩
    · have : (handleTokenRotation enc newTok u false true db).2 =
          deleteUser (db ++ [rotatedRow enc newTok u]) newTok := rfl
      rw [this, hclean]
    · have : (handleTokenRotation enc newTok u false true db).2 =
          deleteUser (db ++ [rotatedRow enc newTok u]) newTok := rfl
      rw [this]
      exact findUser_deleteUser_self _ newTok

def rotOldRow : StripeUser :=
  ⟨"old-tok", 450, some "Nm", some "e@x.c", some "e@x.c", none, some "F9", some "criOld"⟩

/-- Witness for `rotation_spec` on a concrete one-row store. -/
theorem rotation_spec_witness :
    (handleTokenRotation encW ("new-tok") rotOldRow false false [rotOldRow]).2 =
      [⟨"new-tok", 450, some "Nm", some "e@x.c", some "e@x.c", none, some "F9",
        some "new-tok!"⟩] ∧
    findUser (handleTokenRotation encW ("new-tok") rotOldRow false false
      [rotOldRow]).2 ("old-tok") = none := by
  have h := rotation_spec encW ("new-tok") rotOldRow [rotOldRow]
    (by decide) (by decide)
  exact ⟨by decide, h.1⟩

/- ### `withStripeflare` response post-processing (X-Price auto-charge) -/

/-- The header post-processing step of `withStripeflare`: when the handler
response carries an `x-price` header parsing to a number (`xPrice` is that
parsed value, `none` when absent or NaN) and it is positive, charge the
resolved user that amount with `allowNegativeBalance = true` and report the
decremented balance; otherwise leave the store and the reported balance
alone. -/
def withStripeflarePost (xPrice : Option Int) (hasClient : Bool)
    (tok : String) (userBalance : Int) (db : DB) : DB × Int :=
  match xPrice with
  | some price =>
    if 0 < price then
      let res := charge hasClient tok price true db
      (res.2, if res.1.charged then userBalance - price else userBalance)
    else (db, userBalance)
  | none => (db, userBalance)

/-- C9: a positive parsed `X-Price` makes the wrapper charge the resolved
(persisted) user with `allowNegativeBalance = true`, so the stored balance
is decremented unconditionally — also when it is smaller than the price, in
which case it goes below zero. -/
theorem xprice_autocharge_spec (db : DB) (tok : String) (price : Int)
    (r : StripeUser) (hr : findUser db tok = some r) (htok : tok ≠ "")
    (hp : 0 < price) :
    findUser (withStripeflarePost (some price) true tok r.balance db).1 tok =
      some { r with balance := r.balance - price } ∧
    (withStripeflarePost (some price) true tok r.balance db).2 =
      r.balance - price ∧
    (r.balance < price → r.balance - price < 0) := by
  obtain ⟨hmem, hrtok⟩ := findUser_mem db tok r hr
  have hne : (tok == "") = false := by simp [htok]
  have hmc : ∀ x : StripeUser, matchesCharge true tok price x =
      (x.access_token == tok) := by
    intro x
    simp [matchesCharge]
  have hlen : (db.filter (matchesCharge true tok price)).length ≠ 0 := by
    have : r ∈ db.filter (matchesCharge true tok price) := by
      rw [List.mem_filter]
      exact ⟨hmem, by simp [hmc, hrtok]⟩
    have := List.length_pos.2 (List.ne_nil_of_mem this)
    omega
  have hcharge : charge true tok price true db =
      ({ charged := true, message := successfullyChargedMsg },
       db.map (fun x => if matchesCharge true tok price x then
         { x with balance := x.balance - price } else x)) := by
    simp [charge, chargeUpdate, hne, hlen]
  have hout : withStripeflarePost (some price) true tok r.balance db =
      (db.map (fun x => if matchesCharge true tok price x then
        { x with balance := x.balance - price } else x),
       r.balance - price) := by
    simp [withStripeflarePost, hp, hcharge]
  rw [hout]
  refine ⟨?_, rfl, fun h => by omega⟩
  have hpres : ∀ x : StripeUser,
      ((fun x => if matchesCharge true tok price x then
        { x with balance := x.balance - price } else x) x).access_token =
        x.access_token := by
    intro x
    by_cases h : matchesCharge true tok price x = true <;> simp [h]
  rw [findUser_map db tok _ hpres, hr]
  simp [hmc, hrtok]

/-- Witness for `xprice_autocharge_spec`: price 9 against a balance of 5
drives the stored balance to -4. -/
theorem xprice_autocharge_spec_witness :
    findUser (withStripeflarePost (some 9) true ("t1") 5 chargeWitnessDB).1
      ("t1") = some { chargeWitnessUser with balance := -4 } ∧
    (withStripeflarePost (some 9) true ("t1") 5 chargeWitnessDB).2 = -4 := by
  have h := xprice_autocharge_spec chargeWitnessDB ("t1") 9 chargeWitnessUser
    (by decide) (by decide) (by decide)
  refine ⟨?_, ?_⟩
  · have := h.1
    simpa [chargeWitnessUser] using this
  · have := h.2.1
    simpa [chargeWitnessUser] using this

/- ### The `/me` endpoint body -/

/-- The JSON body served on `/me`: the user record minus `access_token`,
`verified_user_access_token` (destructured away) with
`client_reference_id`, `paymentLink` and `registered` added back. -/
structure MeBody where
  name : Option String
  balance : Int
  email : Option String
  verified_email : Option String
  card_fingerprint : Option String
  client_reference_id : Option String
  paymentLink : Option String
  registered : Bool
deriving DecidableEq, Repr

/-- Construction of the `/me` body in `stripeBalanceMiddleware`:
`paymentLink` is the configured payment link with the (URI-encoded) public
identifier appended, `registered` is the truthiness of `email`. -/
def meBody (paymentLinkEnv : String) (urlEnc : String → String)
    (u : StripeUser) : MeBody :=
  { name := u.name, balance := u.balance, email := u.email,
    verified_email := u.verified_email,
    card_fingerprint := u.card_fingerprint,
    client_reference_id := u.client_reference_id,
    paymentLink :=
      match u.client_reference_id with
      | some c =>
        if c = "" then none
        else some (paymentLinkEnv ++ ("?client_reference_id=") ++ urlEnc c)
      | none => none,
    registered := optTruthy u.email }

/-- C10: the `/me` body is a function of the record's public fields plus
`client_reference_id`, the payment link and `registered` only — two users
differing only in `access_token` and `verified_user_access_token` receive
identical bodies, so neither secret can leak through `/me`. -/
theorem meBody_no_secret_leak (link : String) (urlEnc : String → String)
    (u1 u2 : StripeUser)
    (hb : u1.balance = u2.balance) (hn : u1.name = u2.name)
    (he : u1.email = u2.email) (hv : u1.verified_email = u2.verified_email)
    (hf : u1.card_fingerprint = u2.card_fingerprint)
    (hc : u1.client_reference_id = u2.client_reference_id) :
    meBody link urlEnc u1 = meBody link urlEnc u2 := by
  simp [meBody, hb, hn, he, hv, hf, hc]

def meUserA : StripeUser :=
  ⟨"secret-token-A", 5, some "N", some "e@x.c", none, some "secret-vuat", none, some "C1"⟩

def meUserB : StripeUser :=
  ⟨"secret-token-B", 5, some "N", some "e@x.c", none, none, none, some "C1"⟩

/-- Witness for `meBody_no_secret_leak`: two users that differ exactly in
their two secret fields get the same `/me` body. -/
theorem meBody_no_secret_leak_witness :
    meBody ("https://pay.example") encId meUserA =
      meBody ("https://pay.example") encId meUserB ∧
    meUserA.access_token ≠ meUserB.access_token ∧
    meUserA.verified_user_access_token ≠ meUserB.verified_user_access_token := by
  refine ⟨?_, by decide, by decide⟩
  exact meBody_no_secret_leak ("https://pay.example") encId meUserA meUserB
    rfl rfl rfl rfl rfl rfl

/- ### Token codec (`encrypt-decrypt-js.js`) -/

/-- Byte lists: every entry fits in an octet. -/
def ValidBytes (l : List Nat) : Prop := ∀ b ∈ l, b < 256

instance : DecidablePred ValidBytes := fun l => by
  unfold ValidBytes; infer_instance

def base64Chars : List Char :=
  "ABCDEFGHIJKLMNOPQRSTUVWXYZabcdefghijklmnopqrstuvwxyz0123456789+/".toList

def sextetChar (n : Nat) : Char := base64Chars.getD n 'A'

def charSextet (c : Char) : Nat := base64Chars.indexOf c

/-- `btoa` on a byte list: standard base64 with `=` padding (the source
builds a binary string with `String.fromCharCode` per byte, which is the
identity on octets). -/
def btoa : List Nat → List Char
  | [] => []
  | [b1] => [sextetChar (b1 / 4), sextetChar (b1 % 4 * 16), '=', '=']
  | [b1, b2] => [sextetChar (b1 / 4), sextetChar (b1 % 4 * 16 + b2 / 16),
      sextetChar (b2 % 16 * 4), '=']
  | b1 :: b2 :: b3 :: rest =>
      sextetChar (b1 / 4) :: sextetChar (b1 % 4 * 16 + b2 / 16) ::
      sextetChar (b2 % 16 * 4 + b3 / 64) :: sextetChar (b3 % 64) :: btoa rest

/-- `atob` back to bytes, on well-formed base64 (padding only in the final
quartet). -/
def atob : List Char → List Nat
  | c1 :: c2 :: c3 :: c4 :: rest =>
    if c3 = '=' then [charSextet c1 * 4 + charSextet c2 / 16]
    else if c4 = '=' then
      [charSextet c1 * 4 + charSextet c2 / 16,
       charSextet c2 % 16 * 16 + charSextet c3 / 4]
    else
      (charSextet c1 * 4 + charSextet c2 / 16) ::
      (charSextet c2 % 16 * 16 + charSextet c3 / 4) ::
      (charSextet c3 % 4 * 64 + charSextet c4) :: atob rest
  | _ => []

/-- `.replace(/\x7b+\x7d/g, "-").replace(/\x7b\x2f\x7d/g, "_")` per character. -/
def toUrlSafe (c : Char) : Char :=
  if c = '+' then '-' else if c = '/' then '_' else c

/-- The inverse replacement done before decoding. -/
def fromUrlSafe (c : Char) : Char :=
  if c = '-' then '+' else if c = '_' then '/' else c

/-- `.replace(/=/g, "")`. -/
def stripPad (cs : List Char) : List Char := cs.filter (fun c => c != '=')

/-- `arrayBufferToBase64Url`: base64, made URL-safe, padding stripped. -/
def arrayBufferToBase64Url (l : List Nat) : String :=
  String.mk (stripPad ((btoa l).map toUrlSafe))

/-- The `padEnd` length computation: how many `=` to append. -/
def padCount (n : Nat) : Nat := (4 - n % 4) % 4

/-- `base64UrlToArrayBuffer`: undo the URL-safe replacement, re-pad with
`=`, decode (`charCodeAt` on a binary string is the identity on octets). -/
def base64UrlToArrayBuffer (s : String) : List Nat :=
  atob (s.data.map fromUrlSafe ++ List.replicate (padCount s.data.length) '=')

/-- The finite table facts about the base64 alphabet used by the round-trip
proof. -/
theorem sextet_facts : ∀ n, n < 64 →
    charSextet (sextetChar n) = n ∧ sextetChar n ≠ '=' ∧
    fromUrlSafe (toUrlSafe (sextetChar n)) = sextetChar n ∧
    toUrlSafe (sextetChar n) ≠ '=' := by decide

theorem padCount_add4 (n : Nat) : padCount (4 + n) = padCount n := by
  simp [padCount, Nat.add_mod_left]

/-- Core round-trip: the URL-safe mapping, padding strip and re-padding
reconstruct the base64 quartets, and `atob` undoes `btoa`. -/
theorem atob_restore : ∀ l : List Nat, ValidBytes l →
    atob ((stripPad ((btoa l).map toUrlSafe)).map fromUrlSafe ++
      List.replicate (padCount (stripPad ((btoa l).map toUrlSafe)).length) '=') = l
  | [], _ => rfl
  | [b1], h => by
    have hb1 : b1 < 256 := h b1 (by simp)
    have h1 := sextet_facts (b1 / 4) (by omega)
    have h2 := sextet_facts (b1 % 4 * 16) (by omega)
    have hpad : toUrlSafe '=' = '=' := by decide
    have hstrip : stripPad ((btoa [b1]).map toUrlSafe) =
        [toUrlSafe (sextetChar (b1 / 4)), toUrlSafe (sextetChar (b1 % 4 * 16))] := by
      simp [btoa, stripPad, hpad, h1.2.2.2, h2.2.2.2]
    rw [hstrip]
    simp only [List.map_cons, List.map_nil, List.length_cons, List.length_nil,
      h1.2.2.1, h2.2.2.1]
    show atob ([sextetChar (b1 / 4), sextetChar (b1 % 4 * 16)] ++
        List.replicate (padCount 2) '=') = [b1]
    have hrep : List.replicate (padCount 2) '=' = ['=', '='] := by decide
    rw [hrep]
    simp only [List.cons_append, List.nil_append]
    have hat : atob [sextetChar (b1 / 4), sextetChar (b1 % 4 * 16), '=', '='] =
        [charSextet (sextetChar (b1 / 4)) * 4 +
          charSextet (sextetChar (b1 % 4 * 16)) / 16] := by
      simp [atob]
    rw [hat, h1.1, h2.1]
    have : b1 / 4 * 4 + b1 % 4 * 16 / 16 = b1 := by omega
    rw [this]
  | [b1, b2], h => by
    have hb1 : b1 < 256 := h b1 (by simp)
    have hb2 : b2 < 256 := h b2 (by simp)
    have h1 := sextet_facts (b1 / 4) (by omega)
    have h2 := sextet_facts (b1 % 4 * 16 + b2 / 16) (by omega)
    have h3 := sextet_facts (b2 % 16 * 4) (by omega)
    have hpad : toUrlSafe '=' = '=' := by decide
    have hstrip : stripPad ((btoa [b1, b2]).map toUrlSafe) =
        [toUrlSafe (sextetChar (b1 / 4)),
         toUrlSafe (sextetChar (b1 % 4 * 16 + b2 / 16)),
         toUrlSafe (sextetChar (b2 % 16 * 4))] := by
      simp [btoa, stripPad, hpad, h1.2.2.2, h2.2.2.2, h3.2.2.2]
    rw [hstrip]
    simp only [List.map_cons, List.map_nil, List.length_cons, List.length_nil,
      h1.2.2.1, h2.2.2.1, h3.2.2.1]
    show atob ([sextetChar (b1 / 4), sextetChar (b1 % 4 * 16 + b2 / 16),
        sextetChar (b2 % 16 * 4)] ++ List.replicate (padCount 3) '=') = [b1, b2]
    have hrep : List.replicate (padCount 3) '=' = ['='] := by decide
    rw [hrep]
    simp only [List.cons_append, List.nil_append]
    have hat : atob [sextetChar (b1 / 4), sextetChar (b1 % 4 * 16 + b2 / 16),
        sextetChar (b2 % 16 * 4), '='] =
        [charSextet (sextetChar (b1 / 4)) * 4 +
          charSextet (sextetChar (b1 % 4 * 16 + b2 / 16)) / 16,
         charSextet (sextetChar (b1 % 4 * 16 + b2 / 16)) % 16 * 16 +
          charSextet (sextetChar (b2 % 16 * 4)) / 4] := by
      simp [atob, h3.2.1]
    rw [hat, h1.1, h2.1, h3.1]
    have e1 : b1 / 4 * 4 + (b1 % 4 * 16 + b2 / 16) / 16 = b1 := by omega
    have e2 : (b1 % 4 * 16 + b2 / 16) % 16 * 16 + b2 % 16 * 4 / 4 = b2 := by
      omega
    rw [e1, e2]
  | b1 :: b2 :: b3 :: rest, h => by
    have hb1 : b1 < 256 := h b1 (by simp)
    have hb2 : b2 < 256 := h b2 (by simp)
    have hb3 : b3 < 256 := h b3 (by simp)
    have hrest : ValidBytes rest := fun b hb => h b (by simp [hb])
    have ih := atob_restore rest hrest
    have h1 := sextet_facts (b1 / 4) (by omega)
    have h2 := sextet_facts (b1 % 4 * 16 + b2 / 16) (by omega)
    have h3 := sextet_facts (b2 % 16 * 4 + b3 / 64) (by omega)
    have h4 := sextet_facts (b3 % 64) (by omega)
    have hbt : btoa (b1 :: b2 :: b3 :: rest) =
        sextetChar (b1 / 4) :: sextetChar (b1 % 4 * 16 + b2 / 16) ::
        sextetChar (b2 % 16 * 4 + b3 / 64) :: sextetChar (b3 % 64) ::
        btoa rest := rfl
    have hstrip : stripPad ((btoa (b1 :: b2 :: b3 :: rest)).map toUrlSafe) =
        toUrlSafe (sextetChar (b1 / 4)) ::
        toUrlSafe (sextetChar (b1 % 4 * 16 + b2 / 16)) ::
        toUrlSafe (sextetChar (b2 % 16 * 4 + b3 / 64)) ::
        toUrlSafe (sextetChar (b3 % 64)) ::
        stripPad ((btoa rest).map toUrlSafe) := by
      rw [hbt]
      simp [stripPad, h1.2.2.2, h2.2.2.2, h3.2.2.2, h4.2.2.2]
    rw [hstrip]
    simp only [List.map_cons, List.length_cons, h1.2.2.1, h2.2.2.1, h3.2.2.1,
      h4.2.2.1]
    have hlen : ∀ m : Nat, m + 1 + 1 + 1 + 1 = 4 + m := by omega
    rw [hlen, padCount_add4]
    simp only [List.cons_append]
    have hat : ∀ tail : List Char,
        atob (sextetChar (b1 / 4) :: sextetChar (b1 % 4 * 16 + b2 / 16) ::
          sextetChar (b2 % 16 * 4 + b3 / 64) :: sextetChar (b3 % 64) :: tail) =
        (charSextet (sextetChar (b1 / 4)) * 4 +
          charSextet (sextetChar (b1 % 4 * 16 + b2 / 16)) / 16) ::
        (charSextet (sextetChar (b1 % 4 * 16 + b2 / 16)) % 16 * 16 +
          charSextet (sextetChar (b2 % 16 * 4 + b3 / 64)) / 4) ::
        (charSextet (sextetChar (b2 % 16 * 4 + b3 / 64)) % 4 * 64 +
          charSextet (sextetChar (b3 % 64))) :: atob tail := by
      intro tail
      simp [atob, h3.2.1, h4.2.1]
    rw [hat, h1.1, h2.1, h3.1, h4.1]
    have e1 : b1 / 4 * 4 + (b1 % 4 * 16 + b2 / 16) / 16 = b1 := by omega
    have e2 : (b1 % 4 * 16 + b2 / 16) % 16 * 16 +
        (b2 % 16 * 4 + b3 / 64) / 4 = b2 := by omega
    have e3 : (b2 % 16 * 4 + b3 / 64) % 4 * 64 + b3 % 64 = b3 := by omega
    rw [e1, e2, e3, ih]

/-- Round-trip of the repository's base64url helpers on byte lists. -/
theorem base64url_roundtrip (l : List Nat) (h : ValidBytes l) :
    base64UrlToArrayBuffer (arrayBufferToBase64Url l) = l := by
  unfold base64UrlToArrayBuffer arrayBufferToBase64Url
  exact atob_restore l h

/-- The WebCrypto primitives consumed by the codec
(`crypto.subtle.deriveKey` via PBKDF2 with the fixed salt, SHA-256,
AES-GCM encrypt/decrypt, `TextEncoder`/`TextDecoder`).  They are platform
collaborators; the codec composes them deterministically. -/
structure CryptoPrims where
  deriveKey : String → List Nat
  sha256 : List Nat → List Nat
  subtleEncrypt : List Nat → List Nat → List Nat → List Nat
  subtleDecrypt : List Nat → List Nat → List Nat → Option (List Nat)
  textEncode : String → List Nat
  textDecode : List Nat → String

/-- The standard contracts of those primitives: SHA-256 digests are 32
octets, AES-GCM produces octets and decryption inverts encryption under
the same key and IV, and UTF-8 decoding inverts encoding. -/
def CryptoPrims.Good (P : CryptoPrims) : Prop :=
  (∀ b, 12 ≤ (P.sha256 b).length) ∧
  (∀ b, ValidBytes (P.sha256 b)) ∧
  (∀ k iv m, ValidBytes m → ValidBytes (P.subtleEncrypt k iv m)) ∧
  (∀ k iv m, P.subtleDecrypt k iv (P.subtleEncrypt k iv m) = some m) ∧
  (∀ s, ValidBytes (P.textEncode s)) ∧
  (∀ s, P.textDecode (P.textEncode s) = s)

/-- `encryptToken(token, secret)`: derive the key from the secret (fixed
salt, so fully determined by the secret), derive the IV as the first 12
bytes of SHA-256 of the token, encrypt, prepend the IV, base64url-encode. -/
def encryptToken (P : CryptoPrims) (token secret : String) : String :=
  let key := P.deriveKey secret
  let iv := (P.sha256 (P.textEncode token)).take 12
  let encrypted := P.subtleEncrypt key iv (P.textEncode token)
  arrayBufferToBase64Url (iv ++ encrypted)

/-- `decryptToken(cipherText, secret)`: base64url-decode, split off the
12-byte IV, decrypt, UTF-8-decode.  `none` models the AES-GCM
authentication failure throw. -/
def decryptToken (P : CryptoPrims) (cipherText secret : String) :
    Option String :=
  let key := P.deriveKey secret
  let combined := base64UrlToArrayBuffer cipherText
  let iv := combined.take 12
  let encrypted := combined.drop 12
  (P.subtleDecrypt key iv encrypted).map P.textDecode

/-- C2: for every secret of at least 16 characters and every token,
decrypting the encryption of the token under the same secret returns the
token, for any platform primitives satisfying their standard contracts;
and `encryptToken` is a pure deterministic function of (token, secret) —
the key derivation uses a fixed salt and the IV is derived from the token,
so no randomness enters the computation. -/
theorem codec_roundtrip_deterministic (P : CryptoPrims) (hP : P.Good)
    (secret token : String) (hsec : 16 ≤ secret.length) :
    decryptToken P (encryptToken P token secret) secret = some token ∧
    encryptToken P token secret = encryptToken P token secret := by
  obtain ⟨hshaLen, hshaBytes, hencBytes, hdecenc, htextBytes, htextRound⟩ := hP
  refine ⟨?_, rfl⟩
  unfold encryptToken decryptToken
  dsimp only
  have hivlen : ((P.sha256 (P.textEncode token)).take 12).length = 12 := by
    rw [List.length_take]
    have := hshaLen (P.textEncode token)
    omega
  have hvalid : ValidBytes ((P.sha256 (P.textEncode token)).take 12 ++
      P.subtleEncrypt (P.deriveKey secret)
        ((P.sha256 (P.textEncode token)).take 12) (P.textEncode token)) := by
    intro b hb
    rcases List.mem_append.1 hb with hb | hb
    · exact hshaBytes (P.textEncode token) b ((List.take_sublist 12 _).mem hb)
    · exact hencBytes _ _ _ (htextBytes token) b hb
  rw [base64url_roundtrip _ hvalid]
  rw [List.take_left' hivlen, List.drop_left' hivlen]
  rw [hdecenc]
  simp [htextRound]

/-- Fixed-width 3-octet big-endian encoding of one Unicode scalar value
(witness instantiation of `TextEncoder`). -/
def char3 (c : Char) : List Nat :=
  [c.toNat / 65536, c.toNat / 256 % 256, c.toNat % 256]

def chunk3ToChars : List Nat → List Char
  | a :: b :: c :: rest => Char.ofNat (a * 65536 + b * 256 + c) :: chunk3ToChars rest
  | _ => []

theorem char_toNat_lt (c : Char) : c.toNat < 1114112 := by
  rcases c.valid with h | h
  · have hh : c.toNat < 55296 := h
    omega
  · exact h.2

theorem chunk3_char3 (l : List Char) :
    chunk3ToChars ((l.map char3).flatten) = l := by
  induction l with
  | nil => rfl
  | cons c cs ih =>
    have hstep : ((c :: cs).map char3).flatten =
        c.toNat / 65536 :: (c.toNat / 256 % 256 :: (c.toNat % 256 ::
          (cs.map char3).flatten)) := by
      simp [char3]
    rw [hstep]
    show Char.ofNat (c.toNat / 65536 * 65536 + c.toNat / 256 % 256 * 256 +
        c.toNat % 256) :: chunk3ToChars ((cs.map char3).flatten) = c :: cs
    have harith : c.toNat / 65536 * 65536 + c.toNat / 256 % 256 * 256 +
        c.toNat % 256 = c.toNat := by omega
    rw [harith, Char.ofNat_toNat, ih]

/-- Concrete primitives satisfying the standard contracts, used to witness
the codec theorem. -/
def witnessPrims : CryptoPrims :=
  { deriveKey := fun _ => []
    sha256 := fun _ => List.replicate 32 0
    subtleEncrypt := fun _ _ m => m
    subtleDecrypt := fun _ _ c => some c
    textEncode := fun s => (s.data.map char3).flatten
    textDecode := fun l => String.mk (chunk3ToChars l) }

theorem witnessPrims_good : witnessPrims.Good := by
  refine ⟨?_, ?_, ?_, ?_, ?_, ?_⟩
  · intro b
    simp [witnessPrims]
  · intro b x hx
    rw [List.eq_of_mem_replicate hx]
    omega
  · intro k iv m hm
    exact hm
  · intro k iv m
    rfl
  · intro s b hb
    show b < 256
    rcases List.mem_flatten.1 hb with ⟨chunk, hchunk, hbc⟩
    rcases List.mem_map.1 hchunk with ⟨c, _, hc⟩
    subst hc
    have := char_toNat_lt c
    simp only [char3, List.mem_cons, List.not_mem_nil, or_false] at hbc
    rcases hbc with h | h | h <;> omega
  · intro s
    show String.mk (chunk3ToChars ((s.data.map char3).flatten)) = s
    rw [chunk3_char3]


/-- Witness for `codec_roundtrip_deterministic` at a concrete secret of 16
characters and a concrete token. -/
theorem codec_roundtrip_deterministic_witness :
    decryptToken witnessPrims
        (encryptToken witnessPrims ("tok-123") ("0123456789abcdef"))
        ("0123456789abcdef") = some ("tok-123") ∧
    encryptToken witnessPrims ("tok-123") ("0123456789abcdef") =
      encryptToken witnessPrims ("tok-123") ("0123456789abcdef") :=
  codec_roundtrip_deterministic witnessPrims witnessPrims_good
    ("0123456789abcdef") ("tok-123") (by decide)
